import Mathlib

/-!
# Verification development for the `closer` package

The package keeps a registry of cleanup functions (`Closer`) that are run in
FILO order by `CloseAll`, either directly or from the goroutine started by
`CloseGracefullyInCaseOfSigterm`.

## Embedding

* A Go `func()` value is represented by an identifier (`Fn`).  What the
  function does when it is called is given by a `Program`, which maps every
  identifier to a finite script of statements.  The fields `closerFunctions`
  and `messages` are unexported, so code outside the package can only reach the
  closer through `AddCloseFn` and by assigning `Logging`; a script is therefore
  a list of such calls, and it may end in a panic.  Re-entrant calls of
  `CloseAll` from inside a cleanup function are outside the model.
* Execution is observed through a trace of events: lines written by
  `fmt.Println`, invocations of cleanup functions, `AddCloseFn` calls, and
  `os.Exit`.
* The loop `for i, fn := range c.closerFunctions` evaluates its range
  expression once; the model iterates over that snapshot while `c.messages[i]`
  and `c.Logging` are read from the current state of the closer.
-/

namespace closer

/-- Identity of a Go `func()` value. -/
abbrev Fn := Nat

/-- The struct `Closer`: two slices and the exported flag. -/
structure Closer where
  closerFunctions : List Fn
  messages : List String
  Logging : Bool
deriving DecidableEq, Repr

/-- What a cleanup function may do: call `AddCloseFn` on the closer, assign
`Logging`, or panic. -/
inductive Stmt where
  | addCloseFn (message : String) (fn : Fn)
  | setLogging (b : Bool)
  | panic
deriving DecidableEq, Repr

/-- The bodies of all cleanup functions. -/
abbrev Program := Fn → List Stmt

/-- Observable events. -/
inductive Event where
  | print (line : String)
  | call (fn : Fn)
  | added (message : String) (fn : Fn)
  | exit (code : Int)
deriving DecidableEq, Repr

/-- Why a call panicked. -/
inductive PanicCause where
  | indexOutOfRange
  | raisedBy (fn : Fn)
deriving DecidableEq, Repr

/-- How a call ends. -/
inductive Completion where
  | returned
  | panicked (cause : PanicCause)
  | exited (code : Int)
  | waiting
deriving DecidableEq, Repr

/-- Outcome of running a piece of code: how it ended, the closer it left
behind, and the events it produced in chronological order. -/
structure Result where
  completion : Completion
  closer : Closer
  trace : List Event
deriving DecidableEq, Repr

/-- Put events that happened earlier in front of a result's trace. -/
def Result.after (evs : List Event) (r : Result) : Result :=
  { r with trace := evs ++ r.trace }

/-- `NewCloser` of closer.go. -/
def NewCloser : Closer :=
  { closerFunctions := [], messages := [], Logging := true }

/-- `AddCloseFn` of closer.go: both slices are rebuilt as
`append([]T{x}, old...)`. -/
def AddCloseFn (c : Closer) (message : String) (fn : Fn) : Closer :=
  { c with
    closerFunctions := [fn] ++ c.closerFunctions
    messages := [message] ++ c.messages }

/-- Assignment `c.Logging = b`. -/
def setLogging (c : Closer) (b : Bool) : Closer :=
  { c with Logging := b }

/-- Run the body of cleanup function `self` on the closer. -/
def runStmts (self : Fn) : List Stmt → Closer → Result
  | [], c => ⟨.returned, c, []⟩
  | .addCloseFn message fn :: rest, c =>
      (runStmts self rest (AddCloseFn c message fn)).after [.added message fn]
  | .setLogging b :: rest, c => runStmts self rest (setLogging c b)
  | .panic :: _, c => ⟨.panicked (.raisedBy self), c, []⟩

/-- The call `fn()`. -/
def invoke (prog : Program) (fn : Fn) (c : Closer) : Result :=
  (runStmts fn (prog fn) c).after [.call fn]

/-- The statement `if c.Logging { message := c.messages[i]; fmt.Println(message) }`:
the events it produces, or `none` when the index is out of range. -/
def logStep (c : Closer) (i : Nat) : Option (List Event) :=
  if c.Logging then
    match c.messages[i]? with
    | some message => some [.print message]
    | none => none
  else some []

/-- The loop of `CloseAll` over the snapshot of `c.closerFunctions` taken at
loop entry; `i` is the index of the head of the remaining snapshot. -/
def closeAllLoop (prog : Program) : List Fn → Nat → Closer → Result
  | [], _, c => ⟨.returned, c, []⟩
  | fn :: rest, i, c =>
      match logStep c i with
      | none => ⟨.panicked .indexOutOfRange, c, []⟩
      | some logged =>
          let r := invoke prog fn c
          match r.completion with
          | .returned => (closeAllLoop prog rest (i + 1) r.closer).after (logged ++ r.trace)
          | _ => r.after logged

/-- `CloseAll` of closer.go. -/
def CloseAll (prog : Program) (c : Closer) : Result :=
  closeAllLoop prog c.closerFunctions 0 c

/-- The signals passed to `signal.Notify`. -/
inductive Signal where
  | interrupt
  | sigterm
deriving DecidableEq, Repr

/-- The fixed notice printed by the goroutine. -/
def sigtermNotice : String := "SIGTERM RECEIVED. CLOSING SERVER"

/-- Body of the goroutine of `CloseGracefullyInCaseOfSigterm` after `<-ch` has
delivered a signal: optional notice, `c.CloseAll()`, `os.Exit(1)`. -/
def shutdownSequence (prog : Program) (c : Closer) : Result :=
  let notice := if c.Logging then [Event.print sigtermNotice] else []
  let r := CloseAll prog c
  match r.completion with
  | .returned => ⟨.exited 1, r.closer, notice ++ r.trace ++ [.exit 1]⟩
  | _ => r.after notice

/-- The goroutine started by `CloseGracefullyInCaseOfSigterm`: it blocks on the
channel until one of the notified signals arrives and then runs the shutdown
sequence on the closer as it is at that moment. -/
def CloseGracefullyInCaseOfSigterm (prog : Program) (c : Closer) :
    Option Signal → Result
  | none => ⟨.waiting, c, []⟩
  | some _ => shutdownSequence prog c

/-- Calls a client of the package can make. -/
inductive Op where
  | addCloseFn (message : String) (fn : Fn)
  | closeAll
  | setLogging (b : Bool)
deriving DecidableEq, Repr

/-- One client call. A panic escaping from `CloseAll` is taken to be recovered
by the client, which keeps using the closer. -/
def step (prog : Program) (c : Closer) : Op → Result
  | .addCloseFn message fn => ⟨.returned, AddCloseFn c message fn, [.added message fn]⟩
  | .closeAll => CloseAll prog c
  | .setLogging b => ⟨.returned, setLogging c b, []⟩

/-- A sequence of client calls, with the accumulated trace. -/
def runOps (prog : Program) : List Op → Closer → Closer × List Event
  | [], c => (c, [])
  | op :: ops, c =>
      let r := step prog c op
      let rest := runOps prog ops r.closer
      (rest.1, r.trace ++ rest.2)

/-- The registration calls `AddCloseFn(L1, f1)`, ..., `AddCloseFn(Ln, fn)` made
in that order. -/
def registerAll (regs : List (String × Fn)) (c : Closer) : Closer :=
  regs.foldl (fun acc p => AddCloseFn acc p.1 p.2) c

/-- The cleanup functions invoked, in order. -/
def calls : List Event → List Fn
  | [] => []
  | .call fn :: evs => fn :: calls evs
  | _ :: evs => calls evs

/-- The lines printed, in order. -/
def printed : List Event → List String
  | [] => []
  | .print line :: evs => line :: printed evs
  | _ :: evs => printed evs

/-- The `(message, fn)` pairs passed to `AddCloseFn`, in call order. -/
def registrations : List Event → List (String × Fn)
  | [] => []
  | .added message fn :: evs => (message, fn) :: registrations evs
  | _ :: evs => registrations evs

/-- Whether a statement reads or writes the closer. -/
def Stmt.touchesCloser : Stmt → Bool
  | .addCloseFn _ _ => true
  | .setLogging _ => true
  | .panic => false

/-- The cleanup function neither calls `AddCloseFn` nor assigns `Logging`. -/
def leavesCloserAlone (prog : Program) (fn : Fn) : Prop :=
  ∀ s ∈ prog fn, s.touchesCloser = false

/-- The cleanup function does not panic. -/
def neverPanics (prog : Program) (fn : Fn) : Prop :=
  Stmt.panic ∉ prog fn

instance (prog : Program) (fn : Fn) : Decidable (leavesCloserAlone prog fn) := by
  unfold leavesCloserAlone; infer_instance

instance (prog : Program) (fn : Fn) : Decidable (neverPanics prog fn) := by
  unfold neverPanics; infer_instance

/-- The trace of a run that visits the given `(message, fn)` pairs in order:
for each pair the message is printed when logging is on, then the function is
called. -/
def runTrace (logging : Bool) (pairs : List (String × Fn)) : List Event :=
  pairs.flatMap fun p => (if logging then [Event.print p.1] else []) ++ [Event.call p.2]

/-- The registrations of the scenario in the specification. -/
def scenarioRegs : List (String × Fn) :=
  [("close-db", 1), ("close-cache", 2), ("flush-logs", 3)]

/-- A program in which the registered functions 1, 2 and 3 do nothing to the
closer, function 7 panics and function 8 registers function 7. -/
def scenarioProgram : Program := fun fn =>
  if fn = 7 then [Stmt.panic]
  else if fn = 8 then [Stmt.addCloseFn "late" 7]
  else []

/-- The closer `c1` is the closer `c0` with exactly the `AddCloseFn` calls
recorded in the trace `t` prepended to both slices, latest call first. -/
def GrownBy (c0 : Closer) (t : List Event) (c1 : Closer) : Prop :=
  c1.messages = ((registrations t).map Prod.fst).reverse ++ c0.messages ∧
    c1.closerFunctions = ((registrations t).map Prod.snd).reverse ++ c0.closerFunctions

/-- Every invocation in a trace, paired with the line printed immediately
before it, if there is one. -/
def announcedCalls : List Event → List (Option String × Fn)
  | [] => []
  | .print line :: .call fn :: evs => (some line, fn) :: announcedCalls evs
  | .call fn :: evs => (none, fn) :: announcedCalls evs
  | _ :: evs => announcedCalls evs

/-- A program in which function 3 registers function 4 under the label
"late" when it runs, and no other function does anything to the closer. -/
def lateProgram : Program := fun fn =>
  if fn = 3 then [Stmt.addCloseFn "late" 4] else []

/-- A program in which function 5 assigns `Logging = true`, function 6 assigns
`Logging = false`, function 7 panics, and no other function does anything to
the closer. -/
def toggleProgram : Program := fun fn =>
  if fn = 5 then [Stmt.setLogging true]
  else if fn = 6 then [Stmt.setLogging false]
  else if fn = 7 then [Stmt.panic]
  else []

/-- A program in which function 3 registers function 4 under the label
"late" when it runs, function 7 panics, and no other function does anything
to the closer. -/
def latePanicProgram : Program := fun fn =>
  if fn = 3 then [Stmt.addCloseFn "late" 4]
  else if fn = 7 then [Stmt.panic]
  else []

/-! ## Basic facts about the operations -/

theorem calls_append (xs ys : List Event) : calls (xs ++ ys) = calls xs ++ calls ys := by
  induction xs with
  | nil => rfl
  | cons e xs ih => cases e <;> simp [calls, ih]

theorem printed_append (xs ys : List Event) :
    printed (xs ++ ys) = printed xs ++ printed ys := by
  induction xs with
  | nil => rfl
  | cons e xs ih => cases e <;> simp [printed, ih]

theorem registrations_append (xs ys : List Event) :
    registrations (xs ++ ys) = registrations xs ++ registrations ys := by
  induction xs with
  | nil => rfl
  | cons e xs ih => cases e <;> simp [registrations, ih]

/-- A cleanup function that leaves the closer alone and does not panic has no
effect the closer can see. -/
theorem body_nil_of_quiet (prog : Program) (fn : Fn)
    (halone : leavesCloserAlone prog fn) (hret : neverPanics prog fn) : prog fn = [] := by
  unfold leavesCloserAlone at halone
  unfold neverPanics at hret
  cases hbody : prog fn with
  | nil => rfl
  | cons s rest =>
      rw [hbody] at halone hret
      have h1 := halone s (List.mem_cons_self s rest)
      cases s with
      | addCloseFn m f => simp [Stmt.touchesCloser] at h1
      | setLogging b => simp [Stmt.touchesCloser] at h1
      | panic => exact absurd (List.mem_cons_self _ _) hret

theorem invoke_of_body_nil (prog : Program) (fn : Fn) (c : Closer) (h : prog fn = []) :
    invoke prog fn c = ⟨.returned, c, [.call fn]⟩ := by
  simp [invoke, h, runStmts, Result.after]

/-- A script containing `panic` ends in a panic raised by the function that
runs it; the events it produced before are all `AddCloseFn` calls. -/
theorem runStmts_of_panic_mem (self : Fn) (body : List Stmt) (c : Closer)
    (h : Stmt.panic ∈ body) :
    (runStmts self body c).completion = .panicked (.raisedBy self) ∧
      calls (runStmts self body c).trace = [] ∧
      printed (runStmts self body c).trace = [] := by
  induction body generalizing c with
  | nil => simp at h
  | cons s rest ih =>
      cases s with
      | panic => simp [runStmts, calls, printed]
      | addCloseFn m f =>
          have h2 : Stmt.panic ∈ rest := by simpa using h
          have := ih (AddCloseFn c m f) h2
          simpa [runStmts, Result.after, calls, printed] using this
      | setLogging b =>
          have h2 : Stmt.panic ∈ rest := by simpa using h
          simpa [runStmts] using ih (setLogging c b) h2

theorem registerAll_append (xs ys : List (String × Fn)) (c : Closer) :
    registerAll (xs ++ ys) c = registerAll ys (registerAll xs c) := by
  simp [registerAll, List.foldl_append]

theorem registerAll_closerFunctions (regs : List (String × Fn)) (c : Closer) :
    (registerAll regs c).closerFunctions = (regs.map Prod.snd).reverse ++ c.closerFunctions := by
  induction regs generalizing c with
  | nil => simp [registerAll]
  | cons p rest ih =>
      have := ih (AddCloseFn c p.1 p.2)
      simp only [registerAll, List.foldl_cons] at this ⊢
      rw [this]
      simp [AddCloseFn]

theorem registerAll_messages (regs : List (String × Fn)) (c : Closer) :
    (registerAll regs c).messages = (regs.map Prod.fst).reverse ++ c.messages := by
  induction regs generalizing c with
  | nil => simp [registerAll]
  | cons p rest ih =>
      have := ih (AddCloseFn c p.1 p.2)
      simp only [registerAll, List.foldl_cons] at this ⊢
      rw [this]
      simp [AddCloseFn]

theorem registerAll_Logging (regs : List (String × Fn)) (c : Closer) :
    (registerAll regs c).Logging = c.Logging := by
  induction regs generalizing c with
  | nil => simp [registerAll]
  | cons p rest ih =>
      have := ih (AddCloseFn c p.1 p.2)
      simp only [registerAll, List.foldl_cons] at this ⊢
      rw [this]
      simp [AddCloseFn]

/-! ## The loop of `CloseAll` when the cleanup functions are quiet -/

theorem logStep_of_lt (c : Closer) (i : Nat) (h : i < c.messages.length) :
    logStep c i = some (if c.Logging then [Event.print (c.messages.get ⟨i, h⟩)] else []) := by
  unfold logStep
  cases hL : c.Logging with
  | false => simp
  | true => simp [List.getElem?_eq_getElem h]

theorem logStep_of_not_logging (c : Closer) (i : Nat) (h : c.Logging = false) :
    logStep c i = some [] := by
  simp [logStep, h]

theorem closeAllLoop_quiet (prog : Program) (fns : List Fn) (i : Nat) (c : Closer)
    (hq : ∀ fn ∈ fns, prog fn = [])
    (hlen : i + fns.length ≤ c.messages.length) :
    closeAllLoop prog fns i c
      = ⟨.returned, c, runTrace c.Logging (List.zip (c.messages.drop i) fns)⟩ := by
  induction fns generalizing i with
  | nil => simp [closeAllLoop, runTrace]
  | cons fn rest ih =>
      have hfn : prog fn = [] := hq fn (List.mem_cons_self fn rest)
      have hrest : ∀ f ∈ rest, prog f = [] := fun f hf => hq f (List.mem_cons_of_mem fn hf)
      simp only [List.length_cons] at hlen
      have hi : i < c.messages.length := by omega
      have ih2 := ih (i + 1) hrest (by omega)
      have hd : c.messages.drop i = c.messages.get ⟨i, hi⟩ :: c.messages.drop (i + 1) := by
        simp
      rw [hd]
      simp only [closeAllLoop, logStep_of_lt c i hi, invoke_of_body_nil prog fn c hfn,
        ih2, Result.after, runTrace, List.zip_cons_cons, List.flatMap_cons]

theorem closeAllLoop_quiet_not_logging (prog : Program) (fns : List Fn) (i : Nat) (c : Closer)
    (hq : ∀ fn ∈ fns, prog fn = []) (hL : c.Logging = false) :
    closeAllLoop prog fns i c = ⟨.returned, c, fns.map Event.call⟩ := by
  induction fns generalizing i with
  | nil => simp [closeAllLoop]
  | cons fn rest ih =>
      have hfn : prog fn = [] := hq fn (List.mem_cons_self fn rest)
      have hrest : ∀ f ∈ rest, prog f = [] := fun f hf => hq f (List.mem_cons_of_mem fn hf)
      simp [closeAllLoop, logStep_of_not_logging c i hL, invoke_of_body_nil prog fn c hfn,
        ih (i + 1) hrest, Result.after]

theorem calls_runTrace (logging : Bool) (pairs : List (String × Fn)) :
    calls (runTrace logging pairs) = pairs.map Prod.snd := by
  induction pairs with
  | nil => rfl
  | cons p rest ih =>
      have : runTrace logging (p :: rest)
          = ((if logging then [Event.print p.1] else []) ++ [Event.call p.2])
            ++ runTrace logging rest := by
        simp [runTrace]
      rw [this, calls_append, ih]
      cases logging <;> simp [calls]

theorem printed_runTrace_true (pairs : List (String × Fn)) :
    printed (runTrace true pairs) = pairs.map Prod.fst := by
  induction pairs with
  | nil => rfl
  | cons p rest ih =>
      have : runTrace true (p :: rest)
          = [Event.print p.1, Event.call p.2] ++ runTrace true rest := by
        simp [runTrace]
      rw [this, printed_append, ih]
      simp [printed]

theorem printed_runTrace_false (pairs : List (String × Fn)) :
    printed (runTrace false pairs) = [] := by
  induction pairs with
  | nil => rfl
  | cons p rest ih =>
      have : runTrace false (p :: rest) = [Event.call p.2] ++ runTrace false rest := by
        simp [runTrace]
      rw [this, printed_append, ih]
      simp [printed]

theorem runTrace_false (pairs : List (String × Fn)) :
    runTrace false pairs = (pairs.map Prod.snd).map Event.call := by
  induction pairs with
  | nil => rfl
  | cons p rest ih =>
      have : runTrace false (p :: rest) = [Event.call p.2] ++ runTrace false rest := by
        simp [runTrace]
      rw [this, ih]
      simp

theorem zip_fst_snd (pairs : List (String × Fn)) :
    List.zip (pairs.map Prod.fst) (pairs.map Prod.snd) = pairs := by
  induction pairs with
  | nil => rfl
  | cons p rest ih => simp [ih]

/-- The closer after the registrations `regs` on a new closer, with `Logging`
then assigned `b`: `CloseAll` returns, leaves the closer as it was and produces
the run trace of the registrations in reverse order. -/
theorem closeAll_registered (prog : Program) (regs : List (String × Fn)) (b : Bool)
    (hq : ∀ p ∈ regs, prog p.2 = []) :
    CloseAll prog (setLogging (registerAll regs NewCloser) b)
      = ⟨.returned, setLogging (registerAll regs NewCloser) b, runTrace b regs.reverse⟩ := by
  have hf : (setLogging (registerAll regs NewCloser) b).closerFunctions
      = (regs.reverse).map Prod.snd := by
    simp [setLogging, registerAll_closerFunctions, NewCloser, List.map_reverse]
  have hm : (setLogging (registerAll regs NewCloser) b).messages
      = (regs.reverse).map Prod.fst := by
    simp [setLogging, registerAll_messages, NewCloser, List.map_reverse]
  have hL : (setLogging (registerAll regs NewCloser) b).Logging = b := rfl
  unfold CloseAll
  rw [closeAllLoop_quiet prog _ 0 _ (by
        rw [hf]; intro fn hfn
        obtain ⟨p, hp, rfl⟩ := List.mem_map.mp hfn
        exact hq p (List.mem_reverse.mp hp)) (by rw [hf, hm]; simp)]
  rw [hL, hm, hf, List.drop_zero, zip_fst_snd]

theorem setLogging_registerAll_new (regs : List (String × Fn)) :
    setLogging (registerAll regs NewCloser) true = registerAll regs NewCloser := by
  have h := registerAll_Logging regs NewCloser
  cases hc : registerAll regs NewCloser with
  | mk fs ms l =>
      rw [hc] at h
      simp only [NewCloser] at h
      simp [setLogging, h]

theorem quiet_of_regs (prog : Program) (regs : List (String × Fn))
    (halone : ∀ p ∈ regs, leavesCloserAlone prog p.2)
    (hret : ∀ p ∈ regs, neverPanics prog p.2) : ∀ p ∈ regs, prog p.2 = [] :=
  fun p hp => body_nil_of_quiet prog p.2 (halone p hp) (hret p hp)

/-! ## Both slices grow together -/

theorem grownBy_of_no_registrations (c : Closer) (t : List Event)
    (h : registrations t = []) : GrownBy c t c := by
  simp [GrownBy, h]

theorem grownBy_trans {c0 c1 c2 : Closer} {t1 t2 : List Event}
    (h1 : GrownBy c0 t1 c1) (h2 : GrownBy c1 t2 c2) : GrownBy c0 (t1 ++ t2) c2 := by
  obtain ⟨hm1, hf1⟩ := h1
  obtain ⟨hm2, hf2⟩ := h2
  constructor
  · rw [hm2, hm1, registrations_append]; simp
  · rw [hf2, hf1, registrations_append]; simp

theorem grownBy_setLogging {c0 c1 : Closer} {t : List Event} (b : Bool)
    (h : GrownBy c0 t c1) : GrownBy (setLogging c0 b) t c1 := h

theorem runStmts_grownBy (self : Fn) (body : List Stmt) (c : Closer) :
    GrownBy c (runStmts self body c).trace (runStmts self body c).closer := by
  induction body generalizing c with
  | nil => exact grownBy_of_no_registrations c [] rfl
  | cons s rest ih =>
      cases s with
      | panic => exact grownBy_of_no_registrations c [] rfl
      | setLogging b => exact grownBy_setLogging b (ih (setLogging c b))
      | addCloseFn m f =>
          have h1 : GrownBy c [Event.added m f] (AddCloseFn c m f) := by
            simp [GrownBy, registrations, AddCloseFn]
          exact grownBy_trans h1 (ih (AddCloseFn c m f))

theorem invoke_grownBy (prog : Program) (fn : Fn) (c : Closer) :
    GrownBy c (invoke prog fn c).trace (invoke prog fn c).closer := by
  have h1 : GrownBy c [Event.call fn] c := grownBy_of_no_registrations c _ rfl
  exact grownBy_trans h1 (runStmts_grownBy fn (prog fn) c)

theorem registrations_of_logStep (c : Closer) (i : Nat) (logged : List Event)
    (h : logStep c i = some logged) : registrations logged = [] := by
  unfold logStep at h
  split at h
  · split at h
    · cases h; rfl
    · cases h
  · cases h; rfl

theorem closeAllLoop_grownBy (prog : Program) (fns : List Fn) (i : Nat) (c : Closer) :
    GrownBy c (closeAllLoop prog fns i c).trace (closeAllLoop prog fns i c).closer := by
  induction fns generalizing i c with
  | nil => exact grownBy_of_no_registrations c [] rfl
  | cons fn rest ih =>
      unfold closeAllLoop
      cases hlog : logStep c i with
      | none => exact grownBy_of_no_registrations c [] rfl
      | some logged =>
          have h0 : GrownBy c logged c :=
            grownBy_of_no_registrations c logged (registrations_of_logStep c i logged hlog)
          have h1 := grownBy_trans h0 (invoke_grownBy prog fn c)
          simp only
          split
          · have h2 := grownBy_trans h1 (ih (i + 1) (invoke prog fn c).closer)
            simpa [Result.after] using h2
          · simpa [Result.after] using h1

theorem step_grownBy (prog : Program) (c : Closer) (op : Op) :
    GrownBy c (step prog c op).trace (step prog c op).closer := by
  cases op with
  | addCloseFn m f => simp [step, GrownBy, registrations, AddCloseFn]
  | closeAll => exact closeAllLoop_grownBy prog c.closerFunctions 0 c
  | setLogging b => simp [step, GrownBy, registrations, setLogging]

theorem runOps_grownBy (prog : Program) (ops : List Op) (c : Closer) :
    GrownBy c (runOps prog ops c).2 (runOps prog ops c).1 := by
  induction ops generalizing c with
  | nil => exact grownBy_of_no_registrations c [] rfl
  | cons op rest ih =>
      exact grownBy_trans (step_grownBy prog c op) (ih (step prog c op).closer)

/-! ## Cleanup functions that leave the closer alone -/

theorem runStmts_alone (self : Fn) (body : List Stmt) (c : Closer)
    (h : ∀ s ∈ body, s.touchesCloser = false) :
    (runStmts self body c).closer = c ∧ (runStmts self body c).trace = [] := by
  cases body with
  | nil => simp [runStmts]
  | cons s rest =>
      have h1 := h s (List.mem_cons_self s rest)
      cases s with
      | addCloseFn m f => simp [Stmt.touchesCloser] at h1
      | setLogging b => simp [Stmt.touchesCloser] at h1
      | panic => simp [runStmts]

theorem invoke_alone (prog : Program) (fn : Fn) (c : Closer)
    (h : leavesCloserAlone prog fn) :
    (invoke prog fn c).closer = c ∧ (invoke prog fn c).trace = [Event.call fn] := by
  obtain ⟨h1, h2⟩ := runStmts_alone fn (prog fn) c h
  simp [invoke, Result.after, h1, h2]

theorem closeAllLoop_frame (prog : Program) (fns : List Fn) (i : Nat) (c : Closer)
    (h : ∀ fn ∈ fns, leavesCloserAlone prog fn) :
    (closeAllLoop prog fns i c).closer = c := by
  induction fns generalizing i with
  | nil => rfl
  | cons fn rest ih =>
      have hfn := invoke_alone prog fn c (h fn (List.mem_cons_self fn rest))
      have hrest : ∀ f ∈ rest, leavesCloserAlone prog f :=
        fun f hf => h f (List.mem_cons_of_mem fn hf)
      unfold closeAllLoop
      cases hlog : logStep c i with
      | none => rfl
      | some logged =>
          simp only
          split
          · simp only [Result.after, hfn.1]
            exact ih (i + 1) hrest
          · simp only [Result.after, hfn.1]

theorem closeAll_quiet (prog : Program) (c : Closer)
    (halone : ∀ fn ∈ c.closerFunctions, leavesCloserAlone prog fn)
    (hret : ∀ fn ∈ c.closerFunctions, neverPanics prog fn)
    (hlen : c.closerFunctions.length ≤ c.messages.length) :
    CloseAll prog c
      = ⟨.returned, c, runTrace c.Logging (List.zip c.messages c.closerFunctions)⟩ := by
  unfold CloseAll
  rw [closeAllLoop_quiet prog c.closerFunctions 0 c
    (fun fn hfn => body_nil_of_quiet prog fn (halone fn hfn) (hret fn hfn)) (by omega)]
  simp

/-! ## A panicking cleanup function -/

theorem closeAllLoop_quiet_then (prog : Program) (pre suf : List Fn) (i : Nat) (c : Closer)
    (hq : ∀ fn ∈ pre, prog fn = [])
    (hlen : i + pre.length ≤ c.messages.length) :
    closeAllLoop prog (pre ++ suf) i c
      = (closeAllLoop prog suf (i + pre.length) c).after
          (runTrace c.Logging (List.zip (c.messages.drop i) pre)) := by
  induction pre generalizing i with
  | nil => simp [runTrace, Result.after]
  | cons fn rest ih =>
      have hfn : prog fn = [] := hq fn (List.mem_cons_self fn rest)
      have hrest : ∀ f ∈ rest, prog f = [] := fun f hf => hq f (List.mem_cons_of_mem fn hf)
      simp only [List.length_cons] at hlen
      have hi : i < c.messages.length := by omega
      have ih2 := ih (i + 1) hrest (by omega)
      have hd : c.messages.drop i = c.messages.get ⟨i, hi⟩ :: c.messages.drop (i + 1) := by
        simp
      have hidx : i + 1 + rest.length = i + (rest.length + 1) := by omega
      show closeAllLoop prog (fn :: (rest ++ suf)) i c = _
      rw [closeAllLoop, logStep_of_lt c i hi]
      simp only [invoke_of_body_nil prog fn c hfn]
      rw [ih2, hd, hidx]
      simp only [Result.after, runTrace, List.zip_cons_cons, List.flatMap_cons,
        List.length_cons, List.append_assoc, List.singleton_append, List.cons_append]

theorem closeAllLoop_panic_head (prog : Program) (fk : Fn) (rest : List Fn) (j : Nat)
    (c : Closer) (hk : Stmt.panic ∈ prog fk) (hj : j < c.messages.length) :
    (closeAllLoop prog (fk :: rest) j c).completion = .panicked (.raisedBy fk) ∧
      calls (closeAllLoop prog (fk :: rest) j c).trace = [fk] ∧
      printed (closeAllLoop prog (fk :: rest) j c).trace
        = if c.Logging then [c.messages.get ⟨j, hj⟩] else [] := by
  obtain ⟨h1, h2, h3⟩ := runStmts_of_panic_mem fk (prog fk) c hk
  have hc : (invoke prog fk c).completion = .panicked (.raisedBy fk) := by
    simpa [invoke, Result.after] using h1
  simp only [closeAllLoop, logStep_of_lt c j hj, hc]
  refine ⟨hc, ?_, ?_⟩
  · cases c.Logging <;> simp [Result.after, invoke, calls, calls_append, h2]
  · cases c.Logging <;> simp [Result.after, invoke, printed, printed_append, h3]

theorem closeAll_panic (prog : Program) (c : Closer) (pre : List (String × Fn))
    (Lk : String) (fk : Fn) (restM : List String) (restF : List Fn)
    (hm : c.messages = pre.map Prod.fst ++ Lk :: restM)
    (hf : c.closerFunctions = pre.map Prod.snd ++ fk :: restF)
    (hq : ∀ p ∈ pre, prog p.2 = []) (hk : Stmt.panic ∈ prog fk) :
    (CloseAll prog c).completion = .panicked (.raisedBy fk) ∧
      calls (CloseAll prog c).trace = pre.map Prod.snd ++ [fk] ∧
      printed (CloseAll prog c).trace
        = if c.Logging then pre.map Prod.fst ++ [Lk] else [] := by
  have hlen : 0 + (pre.map Prod.snd).length ≤ c.messages.length := by
    rw [hm]; simp
  have hj : 0 + (pre.map Prod.snd).length < c.messages.length := by
    rw [hm]; simp
  have hget : c.messages.get ⟨0 + (pre.map Prod.snd).length, hj⟩ = Lk := by
    simp only [hm, List.get_eq_getElem, Nat.zero_add, List.length_map]
    rw [List.getElem_append_right (by simp)]
    simp
  have hzip : List.zip (c.messages.drop 0) (pre.map Prod.snd) = pre := by
    rw [List.drop_zero, hm]
    have := @List.zip_append _ _ (pre.map Prod.fst) (Lk :: restM)
      (pre.map Prod.snd) [] (by simp)
    rw [List.append_nil] at this
    rw [this, zip_fst_snd]
    simp
  obtain ⟨h1, h2, h3⟩ := closeAllLoop_panic_head prog fk restF _ c hk hj
  unfold CloseAll
  rw [hf, closeAllLoop_quiet_then prog (pre.map Prod.snd) (fk :: restF) 0 c
    (by
      intro fn hfn
      obtain ⟨p, hp, rfl⟩ := List.mem_map.mp hfn
      exact hq p hp) hlen, hzip]
  refine ⟨h1, ?_, ?_⟩
  · simp only [Result.after, calls_append, calls_runTrace, h2]
  · simp only [Result.after, printed_append, h3, hget]
    cases c.Logging
    · simp [printed_runTrace_false]
    · simp [printed_runTrace_true]

/-! ## Runs in which cleanup functions register further functions -/

theorem calls_runStmts (self : Fn) (body : List Stmt) (c : Closer) :
    calls (runStmts self body c).trace = [] := by
  induction body generalizing c with
  | nil => rfl
  | cons s rest ih =>
      cases s with
      | panic => rfl
      | setLogging b => simpa [runStmts] using ih (setLogging c b)
      | addCloseFn m f =>
          simpa [runStmts, Result.after, calls] using ih (AddCloseFn c m f)

theorem calls_invoke (prog : Program) (fn : Fn) (c : Closer) :
    calls (invoke prog fn c).trace = [fn] := by
  simp [invoke, Result.after, calls, calls_runStmts]

theorem calls_of_logStep (c : Closer) (i : Nat) (logged : List Event)
    (h : logStep c i = some logged) : calls logged = [] := by
  unfold logStep at h
  split at h
  · split at h
    · cases h; rfl
    · cases h
  · cases h; rfl

theorem runStmts_completion (self : Fn) (body : List Stmt) (c : Closer) :
    (runStmts self body c).completion = .returned ∨
      (runStmts self body c).completion = .panicked (.raisedBy self) := by
  induction body generalizing c with
  | nil => exact Or.inl rfl
  | cons s rest ih =>
      cases s with
      | panic => exact Or.inr rfl
      | setLogging b => simpa [runStmts] using ih (setLogging c b)
      | addCloseFn m f => simpa [runStmts, Result.after] using ih (AddCloseFn c m f)

theorem invoke_completion_ne_index (prog : Program) (fn : Fn) (c : Closer) :
    (invoke prog fn c).completion ≠ .panicked .indexOutOfRange := by
  have h := runStmts_completion fn (prog fn) c
  have hc : (invoke prog fn c).completion = (runStmts fn (prog fn) c).completion := rfl
  rw [hc]
  rcases h with h | h <;> rw [h] <;> simp

/-- The functions invoked by the loop are an initial part of the snapshot it
iterates over, and the whole snapshot when the loop returns. -/
theorem calls_closeAllLoop (prog : Program) (fns : List Fn) (i : Nat) (c : Closer) :
    calls (closeAllLoop prog fns i c).trace <+: fns ∧
      ((closeAllLoop prog fns i c).completion = .returned →
        calls (closeAllLoop prog fns i c).trace = fns) := by
  induction fns generalizing i c with
  | nil => exact ⟨List.prefix_refl _, fun _ => rfl⟩
  | cons fn rest ih =>
      unfold closeAllLoop
      cases hlog : logStep c i with
      | none => exact ⟨List.nil_prefix, fun h => by cases h⟩
      | some logged =>
          have hl := calls_of_logStep c i logged hlog
          have hi := calls_invoke prog fn c
          simp only
          split
          · obtain ⟨h1, h2⟩ := ih (i + 1) (invoke prog fn c).closer
            simp only [Result.after, calls_append, hl, hi, List.nil_append,
              List.singleton_append]
            exact ⟨(List.prefix_cons_inj fn).mpr h1, fun h => by rw [h2 h]⟩
          · rename_i hne
            simp only [Result.after, calls_append, hl, hi, List.nil_append]
            refine ⟨?_, fun h => absurd h (by intro h2; exact hne h2)⟩
            exact (List.prefix_cons_inj fn).mpr List.nil_prefix

/-- When the message lookup at the head of the snapshot succeeds, the head is
the first function invoked. -/
theorem calls_closeAllLoop_head (prog : Program) (fn : Fn) (rest : List Fn) (i : Nat)
    (c : Closer) (logged : List Event) (hlog : logStep c i = some logged) :
    (calls (closeAllLoop prog (fn :: rest) i c).trace).head? = some fn := by
  have hl := calls_of_logStep c i logged hlog
  have hi := calls_invoke prog fn c
  unfold closeAllLoop
  rw [hlog]
  simp only
  split <;> simp [Result.after, calls_append, hl, hi]

/-! ## The message lookup stays in bounds -/

theorem messages_length_of_grownBy {c0 c1 : Closer} {t : List Event}
    (h : GrownBy c0 t c1) : c0.messages.length ≤ c1.messages.length := by
  rw [h.1]
  simp

theorem closeAllLoop_no_index_panic (prog : Program) (fns : List Fn) (i : Nat) (c : Closer)
    (h : i + fns.length ≤ c.messages.length) :
    (closeAllLoop prog fns i c).completion ≠ .panicked .indexOutOfRange := by
  induction fns generalizing i c with
  | nil => simp [closeAllLoop]
  | cons fn rest ih =>
      simp only [List.length_cons] at h
      have hi : i < c.messages.length := by omega
      have hgrow := messages_length_of_grownBy (invoke_grownBy prog fn c)
      unfold closeAllLoop
      rw [logStep_of_lt c i hi]
      simp only
      split
      · exact ih (i + 1) (invoke prog fn c).closer (by omega)
      · exact invoke_completion_ne_index prog fn c

theorem after_nil (r : Result) : r.after [] = r := by
  cases r
  simp [Result.after]

theorem after_after (xs ys : List Event) (r : Result) :
    (r.after ys).after xs = r.after (xs ++ ys) := by
  simp [Result.after]

theorem closeAllLoop_cons_none (prog : Program) (fn : Fn) (rest : List Fn) (i : Nat)
    (c : Closer) (hlog : logStep c i = none) :
    closeAllLoop prog (fn :: rest) i c = ⟨.panicked .indexOutOfRange, c, []⟩ := by
  rw [closeAllLoop, hlog]

theorem closeAllLoop_cons_returned (prog : Program) (fn : Fn) (rest : List Fn) (i : Nat)
    (c : Closer) (logged : List Event) (hlog : logStep c i = some logged)
    (hinv : (invoke prog fn c).completion = .returned) :
    closeAllLoop prog (fn :: rest) i c
      = (closeAllLoop prog rest (i + 1) (invoke prog fn c).closer).after
          (logged ++ (invoke prog fn c).trace) := by
  rw [closeAllLoop, hlog]
  simp only [hinv]

theorem closeAllLoop_cons_failed (prog : Program) (fn : Fn) (rest : List Fn) (i : Nat)
    (c : Closer) (logged : List Event) (hlog : logStep c i = some logged)
    (hinv : (invoke prog fn c).completion ≠ .returned) :
    closeAllLoop prog (fn :: rest) i c = (invoke prog fn c).after logged := by
  rw [closeAllLoop, hlog]
  simp only

/-- The loop over `pre ++ suf` is the loop over `pre` followed, when that
returns, by the loop over `suf` started at index `i + pre.length` on the closer
the first part left behind. -/
theorem closeAllLoop_append (prog : Program) (pre suf : List Fn) (i : Nat) (c : Closer) :
    closeAllLoop prog (pre ++ suf) i c =
      if (closeAllLoop prog pre i c).completion = .returned then
        (closeAllLoop prog suf (i + pre.length) (closeAllLoop prog pre i c).closer).after
          (closeAllLoop prog pre i c).trace
      else closeAllLoop prog pre i c := by
  induction pre generalizing i c with
  | nil => simp [closeAllLoop, after_nil]
  | cons fn rest ih =>
      show closeAllLoop prog (fn :: (rest ++ suf)) i c = _
      have hidx : i + 1 + rest.length = i + (rest.length + 1) := by omega
      cases hlog : logStep c i with
      | none =>
          rw [closeAllLoop_cons_none prog fn (rest ++ suf) i c hlog,
            closeAllLoop_cons_none prog fn rest i c hlog]
          simp
      | some logged =>
          by_cases hinv : (invoke prog fn c).completion = .returned
          · rw [closeAllLoop_cons_returned prog fn (rest ++ suf) i c logged hlog hinv,
              closeAllLoop_cons_returned prog fn rest i c logged hlog hinv,
              ih (i + 1) (invoke prog fn c).closer]
            by_cases hret : (closeAllLoop prog rest (i + 1) (invoke prog fn c).closer).completion
                = .returned
            · simp [hret, Result.after, hidx, List.append_assoc]
            · simp [hret, Result.after]
          · rw [closeAllLoop_cons_failed prog fn (rest ++ suf) i c logged hlog hinv,
              closeAllLoop_cons_failed prog fn rest i c logged hlog hinv]
            simp [Result.after, hinv]

/-! ## What a run leaves at the front of the registry -/

theorem head_of_grownBy {c0 c1 : Closer} {t : List Event} (message : String) (fn : Fn)
    (h : GrownBy c0 t c1) (hlast : (registrations t).getLast? = some (message, fn)) :
    c1.messages.head? = some message ∧ c1.closerFunctions.head? = some fn := by
  obtain ⟨hm, hf⟩ := h
  rw [hm, hf]
  simp [List.head?_append, List.head?_reverse, List.getLast?_map, hlast]

theorem closeAll_first_call (prog : Program) (c : Closer) (message : String) (fn : Fn)
    (hm : c.messages.head? = some message) (hf : c.closerFunctions.head? = some fn) :
    (calls (CloseAll prog c).trace).head? = some fn := by
  have hpos : 0 < c.messages.length := by
    cases hmsg : c.messages with
    | nil => rw [hmsg] at hm; simp at hm
    | cons m ms => simp
  cases hfs : c.closerFunctions with
  | nil => rw [hfs] at hf; simp at hf
  | cons f rest =>
      rw [hfs] at hf
      simp only [List.head?_cons, Option.some.injEq] at hf
      unfold CloseAll
      rw [hfs, hf]
      exact calls_closeAllLoop_head prog fn rest 0 c _ (logStep_of_lt c 0 hpos)

/-! ## Runs with arbitrary cleanup functions -/

theorem runStmts_returns (self : Fn) (body : List Stmt) (c : Closer)
    (h : Stmt.panic ∉ body) : (runStmts self body c).completion = .returned := by
  induction body generalizing c with
  | nil => rfl
  | cons s rest ih =>
      have hrest : Stmt.panic ∉ rest := fun hmem => h (List.mem_cons_of_mem s hmem)
      cases s with
      | panic => exact absurd (List.mem_cons_self _ _) h
      | setLogging b => simpa [runStmts] using ih (setLogging c b) hrest
      | addCloseFn m f => simpa [runStmts, Result.after] using ih (AddCloseFn c m f) hrest

theorem invoke_returns (prog : Program) (fn : Fn) (c : Closer) (h : neverPanics prog fn) :
    (invoke prog fn c).completion = .returned :=
  runStmts_returns fn (prog fn) c h

theorem closeAllLoop_returns (prog : Program) (fns : List Fn) (i : Nat) (c : Closer)
    (hret : ∀ fn ∈ fns, neverPanics prog fn)
    (hlen : i + fns.length ≤ c.messages.length) :
    (closeAllLoop prog fns i c).completion = .returned := by
  induction fns generalizing i c with
  | nil => rfl
  | cons fn rest ih =>
      simp only [List.length_cons] at hlen
      have hi : i < c.messages.length := by omega
      have hinv := invoke_returns prog fn c (hret fn (List.mem_cons_self fn rest))
      have hgrow := messages_length_of_grownBy (invoke_grownBy prog fn c)
      rw [closeAllLoop_cons_returned prog fn rest i c _ (logStep_of_lt c i hi) hinv]
      exact ih (i + 1) (invoke prog fn c).closer
        (fun f hf => hret f (List.mem_cons_of_mem fn hf)) (by omega)

theorem printed_runStmts (self : Fn) (body : List Stmt) (c : Closer) :
    printed (runStmts self body c).trace = [] := by
  induction body generalizing c with
  | nil => rfl
  | cons s rest ih =>
      cases s with
      | panic => rfl
      | setLogging b => simpa [runStmts] using ih (setLogging c b)
      | addCloseFn m f =>
          simpa [runStmts, Result.after, printed] using ih (AddCloseFn c m f)

theorem printed_invoke (prog : Program) (fn : Fn) (c : Closer) :
    printed (invoke prog fn c).trace = [] := by
  simp [invoke, Result.after, printed, printed_runStmts]

theorem runStmts_logging_false (self : Fn) (body : List Stmt) (c : Closer)
    (hno : Stmt.setLogging true ∉ body) (hL : c.Logging = false) :
    (runStmts self body c).closer.Logging = false := by
  induction body generalizing c with
  | nil => exact hL
  | cons s rest ih =>
      have hrest : Stmt.setLogging true ∉ rest :=
        fun hmem => hno (List.mem_cons_of_mem s hmem)
      cases s with
      | panic => exact hL
      | addCloseFn m f => exact ih (AddCloseFn c m f) hrest hL
      | setLogging b =>
          cases b with
          | true => exact absurd (List.mem_cons_self _ _) hno
          | false => exact ih (setLogging c false) hrest rfl

/-- As long as no function of the snapshot assigns `Logging = true`, a loop
started with `Logging` false prints nothing. -/
theorem closeAllLoop_prints_nothing (prog : Program) (fns : List Fn) (i : Nat) (c : Closer)
    (hno : ∀ fn ∈ fns, Stmt.setLogging true ∉ prog fn) (hL : c.Logging = false) :
    printed (closeAllLoop prog fns i c).trace = [] := by
  induction fns generalizing i c with
  | nil => rfl
  | cons fn rest ih =>
      have hlog := logStep_of_not_logging c i hL
      have hL2 : (invoke prog fn c).closer.Logging = false :=
        runStmts_logging_false fn (prog fn) c (hno fn (List.mem_cons_self fn rest)) hL
      by_cases hinv : (invoke prog fn c).completion = .returned
      · rw [closeAllLoop_cons_returned prog fn rest i c [] hlog hinv]
        simp only [Result.after, List.nil_append, printed_append, printed_invoke]
        exact ih (i + 1) (invoke prog fn c).closer
          (fun f hf => hno f (List.mem_cons_of_mem fn hf)) hL2
      · rw [closeAllLoop_cons_failed prog fn rest i c [] hlog hinv]
        simp [Result.after, printed_invoke]

theorem runStmts_independent (self : Fn) (body : List Stmt) (c1 c2 : Closer)
    (hf : c1.closerFunctions = c2.closerFunctions) (hm : c1.messages = c2.messages) :
    (runStmts self body c1).completion = (runStmts self body c2).completion ∧
      (runStmts self body c1).closer.closerFunctions
        = (runStmts self body c2).closer.closerFunctions ∧
      (runStmts self body c1).closer.messages = (runStmts self body c2).closer.messages := by
  induction body generalizing c1 c2 with
  | nil => exact ⟨rfl, hf, hm⟩
  | cons s rest ih =>
      cases s with
      | panic => exact ⟨rfl, hf, hm⟩
      | setLogging b => exact ih (setLogging c1 b) (setLogging c2 b) hf hm
      | addCloseFn m f =>
          have h := ih (AddCloseFn c1 m f) (AddCloseFn c2 m f)
            (by simp [AddCloseFn, hf]) (by simp [AddCloseFn, hm])
          simpa [runStmts, Result.after] using h

/-- Two closers that differ at most in `Logging` and have a message for every
function of the snapshot give runs that end the same way and invoke the same
functions. -/
theorem closeAllLoop_independent (prog : Program) (fns : List Fn) (i : Nat) (c1 c2 : Closer)
    (hf : c1.closerFunctions = c2.closerFunctions) (hm : c1.messages = c2.messages)
    (hlen : i + fns.length ≤ c1.messages.length) :
    (closeAllLoop prog fns i c1).completion = (closeAllLoop prog fns i c2).completion ∧
      calls (closeAllLoop prog fns i c1).trace = calls (closeAllLoop prog fns i c2).trace := by
  induction fns generalizing i c1 c2 with
  | nil => exact ⟨rfl, rfl⟩
  | cons fn rest ih =>
      simp only [List.length_cons] at hlen
      have hi1 : i < c1.messages.length := by omega
      have hi2 : i < c2.messages.length := by rw [← hm]; exact hi1
      obtain ⟨hc, hf2, hm2⟩ := runStmts_independent fn (prog fn) c1 c2 hf hm
      have hc2 : (invoke prog fn c1).completion = (invoke prog fn c2).completion := hc
      have hgrow := messages_length_of_grownBy (invoke_grownBy prog fn c1)
      have hl1 := calls_of_logStep c1 i _ (logStep_of_lt c1 i hi1)
      have hl2 := calls_of_logStep c2 i _ (logStep_of_lt c2 i hi2)
      by_cases hinv : (invoke prog fn c1).completion = .returned
      · have hinv2 : (invoke prog fn c2).completion = .returned := by rw [← hc2]; exact hinv
        rw [closeAllLoop_cons_returned prog fn rest i c1 _ (logStep_of_lt c1 i hi1) hinv,
          closeAllLoop_cons_returned prog fn rest i c2 _ (logStep_of_lt c2 i hi2) hinv2]
        obtain ⟨h1, h2⟩ := ih (i + 1) (invoke prog fn c1).closer (invoke prog fn c2).closer
          hf2 hm2 (by omega)
        refine ⟨h1, ?_⟩
        simp only [Result.after, calls_append, hl1, hl2, calls_invoke, h2]
      · have hinv2 : (invoke prog fn c2).completion ≠ .returned := by rw [← hc2]; exact hinv
        rw [closeAllLoop_cons_failed prog fn rest i c1 _ (logStep_of_lt c1 i hi1) hinv,
          closeAllLoop_cons_failed prog fn rest i c2 _ (logStep_of_lt c2 i hi2) hinv2]
        refine ⟨hc2, ?_⟩
        simp only [Result.after, calls_append, hl1, hl2, calls_invoke]

/-- When the functions in front of `fk` in the snapshot return and `fk` panics,
the loop ends in the panic raised by `fk` after invoking exactly the functions
up to and including `fk`, whatever those functions do to the closer. -/
theorem closeAllLoop_panic_after (prog : Program) (pre : List Fn) (fk : Fn) (rest : List Fn)
    (i : Nat) (c : Closer)
    (hret : ∀ fn ∈ pre, neverPanics prog fn) (hk : Stmt.panic ∈ prog fk)
    (hlen : i + pre.length < c.messages.length) :
    (closeAllLoop prog (pre ++ fk :: rest) i c).completion = .panicked (.raisedBy fk) ∧
      calls (closeAllLoop prog (pre ++ fk :: rest) i c).trace = pre ++ [fk] := by
  have hpre := closeAllLoop_returns prog pre i c hret (by omega)
  have hcalls := (calls_closeAllLoop prog pre i c).2 hpre
  have hgrow := messages_length_of_grownBy (closeAllLoop_grownBy prog pre i c)
  have hj : i + pre.length < (closeAllLoop prog pre i c).closer.messages.length := by omega
  obtain ⟨h1, h2, _⟩ := closeAllLoop_panic_head prog fk rest (i + pre.length) _ hk hj
  rw [closeAllLoop_append, if_pos hpre]
  exact ⟨h1, by simp [Result.after, calls_append, hcalls, h2]⟩

theorem closeAllLoop_completion (prog : Program) (fns : List Fn) (i : Nat) (c : Closer) :
    (closeAllLoop prog fns i c).completion = .returned ∨
      ∃ cause, (closeAllLoop prog fns i c).completion = .panicked cause := by
  induction fns generalizing i c with
  | nil => exact Or.inl rfl
  | cons fn rest ih =>
      cases hlog : logStep c i with
      | none =>
          rw [closeAllLoop_cons_none prog fn rest i c hlog]
          exact Or.inr ⟨_, rfl⟩
      | some logged =>
          by_cases hinv : (invoke prog fn c).completion = .returned
          · rw [closeAllLoop_cons_returned prog fn rest i c logged hlog hinv]
            exact ih (i + 1) (invoke prog fn c).closer
          · rw [closeAllLoop_cons_failed prog fn rest i c logged hlog hinv]
            rcases runStmts_completion fn (prog fn) c with h | h
            · exact absurd h hinv
            · exact Or.inr ⟨_, h⟩

theorem exit_not_mem_runStmts (self : Fn) (body : List Stmt) (c : Closer) (code : Int) :
    Event.exit code ∉ (runStmts self body c).trace := by
  induction body generalizing c with
  | nil => simp [runStmts]
  | cons s rest ih =>
      cases s with
      | panic => simp [runStmts]
      | setLogging b => simpa [runStmts] using ih (setLogging c b)
      | addCloseFn m f => simpa [runStmts, Result.after] using ih (AddCloseFn c m f)

theorem exit_not_mem_of_logStep (c : Closer) (i : Nat) (logged : List Event) (code : Int)
    (h : logStep c i = some logged) : Event.exit code ∉ logged := by
  unfold logStep at h
  split at h
  · split at h
    · cases h; simp
    · cases h
  · cases h; simp

/-- The loop of `CloseAll` never produces an exit event. -/
theorem exit_not_mem_closeAllLoop (prog : Program) (fns : List Fn) (i : Nat) (c : Closer)
    (code : Int) : Event.exit code ∉ (closeAllLoop prog fns i c).trace := by
  induction fns generalizing i c with
  | nil => simp [closeAllLoop]
  | cons fn rest ih =>
      have hinvoke : Event.exit code ∉ (invoke prog fn c).trace := by
        simpa [invoke, Result.after] using exit_not_mem_runStmts fn (prog fn) c code
      cases hlog : logStep c i with
      | none =>
          rw [closeAllLoop_cons_none prog fn rest i c hlog]
          simp
      | some logged =>
          have hl := exit_not_mem_of_logStep c i logged code hlog
          by_cases hinv : (invoke prog fn c).completion = .returned
          · rw [closeAllLoop_cons_returned prog fn rest i c logged hlog hinv]
            have hrec := ih (i + 1) (invoke prog fn c).closer
            simp only [Result.after, List.mem_append, not_or]
            exact ⟨⟨hl, hinvoke⟩, hrec⟩
          · rw [closeAllLoop_cons_failed prog fn rest i c logged hlog hinv]
            simp only [Result.after, List.mem_append, not_or]
            exact ⟨hl, hinvoke⟩

theorem registered_closerFunctions (regs : List (String × Fn)) :
    (registerAll regs NewCloser).closerFunctions = (regs.map Prod.snd).reverse := by
  rw [registerAll_closerFunctions]
  exact List.append_nil _

theorem registered_messages (regs : List (String × Fn)) :
    (registerAll regs NewCloser).messages = (regs.map Prod.fst).reverse := by
  rw [registerAll_messages]
  exact List.append_nil _

theorem registered_lengths (regs : List (String × Fn)) :
    (registerAll regs NewCloser).messages.length
      = (registerAll regs NewCloser).closerFunctions.length := by
  rw [registered_closerFunctions, registered_messages]
  simp

theorem mem_registered (regs : List (String × Fn)) (fn : Fn)
    (h : fn ∈ (registerAll regs NewCloser).closerFunctions) : ∃ p ∈ regs, p.2 = fn := by
  rw [registered_closerFunctions] at h
  obtain ⟨p, hp, hfn⟩ := List.mem_map.mp (List.mem_reverse.mp h)
  exact ⟨p, hp, hfn⟩

/-! ## The shutdown sequence -/

theorem shutdownSequence_returned (prog : Program) (c : Closer)
    (h : (CloseAll prog c).completion = .returned) :
    shutdownSequence prog c
      = ⟨.exited 1, (CloseAll prog c).closer,
          (if c.Logging then [Event.print sigtermNotice] else [])
            ++ (CloseAll prog c).trace ++ [Event.exit 1]⟩ := by
  simp only [shutdownSequence, h]

theorem shutdownSequence_failed (prog : Program) (c : Closer)
    (h : (CloseAll prog c).completion ≠ .returned) :
    shutdownSequence prog c
      = (CloseAll prog c).after (if c.Logging then [Event.print sigtermNotice] else []) := by
  rcases closeAllLoop_completion prog c.closerFunctions 0 c with hc | ⟨cause, hc⟩
  · exact absurd hc h
  · have hc2 : (CloseAll prog c).completion = .panicked cause := hc
    simp only [shutdownSequence, hc2]

theorem calls_notice (b : Bool) :
    calls (if b then [Event.print sigtermNotice] else []) = [] := by
  cases b <;> rfl

theorem exit_not_mem_notice (b : Bool) (code : Int) :
    Event.exit code ∉ (if b then [Event.print sigtermNotice] else []) := by
  cases b <;> simp

/-- The shutdown sequence on a closer built by registrations whose functions
leave the closer alone and do not panic. -/
theorem shutdown_registered (prog : Program) (regs : List (String × Fn)) (b : Bool)
    (sig : Signal)
    (halone : ∀ p ∈ regs, leavesCloserAlone prog p.2)
    (hret : ∀ p ∈ regs, neverPanics prog p.2) :
    CloseGracefullyInCaseOfSigterm prog (setLogging (registerAll regs NewCloser) b) (some sig)
        = ⟨.exited 1, setLogging (registerAll regs NewCloser) b,
            (if b then [Event.print sigtermNotice] else [])
              ++ (CloseAll prog (setLogging (registerAll regs NewCloser) b)).trace
              ++ [Event.exit 1]⟩ ∧
      (CloseAll prog (setLogging (registerAll regs NewCloser) b)).trace
        = regs.reverse.flatMap
            (fun p => (if b then [Event.print p.1] else []) ++ [Event.call p.2]) ∧
      calls (CloseGracefullyInCaseOfSigterm prog
          (setLogging (registerAll regs NewCloser) b) (some sig)).trace
        = (regs.map Prod.snd).reverse ∧
      printed (CloseGracefullyInCaseOfSigterm prog
          (setLogging (registerAll regs NewCloser) b) (some sig)).trace
        = (if b then sigtermNotice :: (regs.map Prod.fst).reverse else []) := by
  have h := closeAll_registered prog regs b (quiet_of_regs prog regs halone hret)
  have hL : (setLogging (registerAll regs NewCloser) b).Logging = b := rfl
  have hrun : CloseGracefullyInCaseOfSigterm prog
      (setLogging (registerAll regs NewCloser) b) (some sig)
        = ⟨.exited 1, setLogging (registerAll regs NewCloser) b,
            (if b then [Event.print sigtermNotice] else []) ++ runTrace b regs.reverse
              ++ [Event.exit 1]⟩ := by
    simp only [CloseGracefullyInCaseOfSigterm, shutdownSequence, h, hL]
  rw [hrun, h]
  refine ⟨rfl, rfl, ?_, ?_⟩
  · cases b <;> simp [calls_append, calls_runTrace, calls, List.map_reverse]
  · cases b
    · simp [printed_append, printed_runTrace_false, printed]
    · simp [printed_append, printed_runTrace_true, printed, List.map_reverse]

/-! ## Claims -/

/-- C1: after the registrations (L1,f1), ..., (Ln,fn) on a new closer, whatever
the value of Logging, CloseAll returns and the cleanup functions it invokes
are exactly fn, ..., f1 in that order, one invocation per registration,
provided the registered functions leave the closer alone and do not panic. -/
theorem closeAll_filo_order (prog : Program) (regs : List (String × Fn)) (b : Bool)
    (halone : ∀ p ∈ regs, leavesCloserAlone prog p.2)
    (hret : ∀ p ∈ regs, neverPanics prog p.2) :
    (CloseAll prog (setLogging (registerAll regs NewCloser) b)).completion = .returned ∧
      calls (CloseAll prog (setLogging (registerAll regs NewCloser) b)).trace
        = (regs.map Prod.snd).reverse ∧
      ∀ fn, (calls (CloseAll prog (setLogging (registerAll regs NewCloser) b)).trace).count fn
        = (regs.map Prod.snd).count fn := by
  rw [closeAll_registered prog regs b (quiet_of_regs prog regs halone hret)]
  simp [calls_runTrace, List.map_reverse]

theorem closeAll_filo_order_witness :
    (∀ p ∈ scenarioRegs, leavesCloserAlone scenarioProgram p.2) ∧
      (∀ p ∈ scenarioRegs, neverPanics scenarioProgram p.2) ∧
      calls (CloseAll scenarioProgram
        (setLogging (registerAll scenarioRegs NewCloser) false)).trace = [3, 2, 1] :=
  ⟨by decide, by decide,
    (closeAll_filo_order scenarioProgram scenarioRegs false (by decide) (by decide)).2.1⟩

/-- C2: in every state reached from NewCloser by a sequence of AddCloseFn calls,
CloseAll runs (whose cleanup functions may themselves call AddCloseFn or assign
Logging) and Logging assignments, messages and closerFunctions have the same
length, and pairing them index by index gives exactly the (message, fn)
arguments of the AddCloseFn calls made so far, latest call first. -/
theorem registry_pairs_labels_with_functions (prog : Program) (ops : List Op) :
    (runOps prog ops NewCloser).1.messages.length
        = (runOps prog ops NewCloser).1.closerFunctions.length ∧
      List.zip (runOps prog ops NewCloser).1.messages
          (runOps prog ops NewCloser).1.closerFunctions
        = (registrations (runOps prog ops NewCloser).2).reverse ∧
      ∀ i, i < (runOps prog ops NewCloser).1.closerFunctions.length →
        ∃ message fn,
          (runOps prog ops NewCloser).1.messages[i]? = some message ∧
          (runOps prog ops NewCloser).1.closerFunctions[i]? = some fn ∧
          (registrations (runOps prog ops NewCloser).2).reverse[i]? = some (message, fn) := by
  have hm : (runOps prog ops NewCloser).1.messages
      = ((registrations (runOps prog ops NewCloser).2).map Prod.fst).reverse := by
    have h := (runOps_grownBy prog ops NewCloser).1
    rw [h]
    exact List.append_nil _
  have hf : (runOps prog ops NewCloser).1.closerFunctions
      = ((registrations (runOps prog ops NewCloser).2).map Prod.snd).reverse := by
    have h := (runOps_grownBy prog ops NewCloser).2
    rw [h]
    exact List.append_nil _
  have hzip : List.zip (runOps prog ops NewCloser).1.messages
      (runOps prog ops NewCloser).1.closerFunctions
        = (registrations (runOps prog ops NewCloser).2).reverse := by
    rw [hm, hf, ← List.map_reverse, ← List.map_reverse, zip_fst_snd]
  refine ⟨by rw [hm, hf]; simp, hzip, ?_⟩
  intro i hi
  rw [← hzip]
  have hi2 : i < (runOps prog ops NewCloser).1.messages.length := by
    rw [hm]; rw [hf] at hi; simpa using hi
  refine ⟨(runOps prog ops NewCloser).1.messages.get ⟨i, hi2⟩,
    (runOps prog ops NewCloser).1.closerFunctions.get ⟨i, hi⟩, ?_, ?_, ?_⟩
  · simp [List.getElem?_eq_getElem hi2]
  · simp [List.getElem?_eq_getElem hi]
  · have hz : i < (List.zip (runOps prog ops NewCloser).1.messages
        (runOps prog ops NewCloser).1.closerFunctions).length := by
      simp [List.length_zip]; omega
    rw [List.getElem?_eq_getElem hz]
    simp

/-- C3: with Logging true (as NewCloser sets it), after the registrations
(L1,f1), ..., (Ln,fn) on a new closer, CloseAll returns and its trace is exactly
print Ln, call fn, ..., print L1, call f1; in particular the printed lines are
the registered labels in reverse registration order, provided the registered
functions leave the closer alone and do not panic. -/
theorem closeAll_logging_trace (prog : Program) (regs : List (String × Fn))
    (halone : ∀ p ∈ regs, leavesCloserAlone prog p.2)
    (hret : ∀ p ∈ regs, neverPanics prog p.2) :
    (registerAll regs NewCloser).Logging = true ∧
      (CloseAll prog (registerAll regs NewCloser)).completion = .returned ∧
      (CloseAll prog (registerAll regs NewCloser)).trace
        = regs.reverse.flatMap (fun p => [Event.print p.1, Event.call p.2]) ∧
      printed (CloseAll prog (registerAll regs NewCloser)).trace
        = (regs.map Prod.fst).reverse := by
  have h := closeAll_registered prog regs true (quiet_of_regs prog regs halone hret)
  rw [setLogging_registerAll_new] at h
  rw [h]
  refine ⟨by rw [registerAll_Logging]; rfl, rfl, by simp [runTrace], ?_⟩
  simp [printed_runTrace_true, List.map_reverse]

theorem closeAll_logging_trace_witness :
    (∀ p ∈ scenarioRegs, leavesCloserAlone scenarioProgram p.2) ∧
      (∀ p ∈ scenarioRegs, neverPanics scenarioProgram p.2) ∧
      (CloseAll scenarioProgram (registerAll scenarioRegs NewCloser)).trace
        = [Event.print "flush-logs", Event.call 3, Event.print "close-cache", Event.call 2,
            Event.print "close-db", Event.call 1] ∧
      printed (CloseAll scenarioProgram (registerAll scenarioRegs NewCloser)).trace
        = ["flush-logs", "close-cache", "close-db"] :=
  ⟨by decide, by decide,
    (closeAll_logging_trace scenarioProgram scenarioRegs (by decide) (by decide)).2.2.1,
    (closeAll_logging_trace scenarioProgram scenarioRegs (by decide) (by decide)).2.2.2⟩

/-- C4 (amended): for any registrations on a new closer and any cleanup
functions, CloseAll with Logging false ends the same way and invokes the same
functions in the same order as with Logging true; when no registered function
panics it returns after invoking every registered function in reverse
registration order; when no registered function assigns Logging = true, it
prints nothing; and when the registered functions leave the closer alone and
do not panic the trace consists of the calls only. -/
theorem closeAll_without_logging (prog : Program) (regs : List (String × Fn)) :
    ((CloseAll prog (setLogging (registerAll regs NewCloser) false)).completion
          = (CloseAll prog (setLogging (registerAll regs NewCloser) true)).completion ∧
        calls (CloseAll prog (setLogging (registerAll regs NewCloser) false)).trace
          = calls (CloseAll prog (setLogging (registerAll regs NewCloser) true)).trace) ∧
      ((∀ p ∈ regs, neverPanics prog p.2) →
        (CloseAll prog (setLogging (registerAll regs NewCloser) false)).completion
            = .returned ∧
          calls (CloseAll prog (setLogging (registerAll regs NewCloser) false)).trace
            = (regs.map Prod.snd).reverse) ∧
      ((∀ p ∈ regs, Stmt.setLogging true ∉ prog p.2) →
        printed (CloseAll prog (setLogging (registerAll regs NewCloser) false)).trace = []) ∧
      ((∀ p ∈ regs, leavesCloserAlone prog p.2) → (∀ p ∈ regs, neverPanics prog p.2) →
        (CloseAll prog (setLogging (registerAll regs NewCloser) false)).trace
          = (regs.map Prod.snd).reverse.map Event.call) := by
  have hlen : 0 + (registerAll regs NewCloser).closerFunctions.length
      ≤ (setLogging (registerAll regs NewCloser) false).messages.length := by
    have := registered_lengths regs
    simp only [setLogging]
    omega
  refine ⟨?_, ?_, ?_, ?_⟩
  · exact closeAllLoop_independent prog (registerAll regs NewCloser).closerFunctions 0
      (setLogging (registerAll regs NewCloser) false)
      (setLogging (registerAll regs NewCloser) true) rfl rfl hlen
  · intro hret
    have hret2 : ∀ fn ∈ (registerAll regs NewCloser).closerFunctions, neverPanics prog fn := by
      intro fn hfn
      obtain ⟨p, hp, rfl⟩ := mem_registered regs fn hfn
      exact hret p hp
    have hdone : (CloseAll prog (setLogging (registerAll regs NewCloser) false)).completion
        = .returned :=
      closeAllLoop_returns prog (registerAll regs NewCloser).closerFunctions 0
        (setLogging (registerAll regs NewCloser) false) hret2 hlen
    refine ⟨hdone, ?_⟩
    have hcalls := (calls_closeAllLoop prog (registerAll regs NewCloser).closerFunctions 0
      (setLogging (registerAll regs NewCloser) false)).2 hdone
    exact hcalls.trans (registered_closerFunctions regs)
  · intro hno
    have hno2 : ∀ fn ∈ (registerAll regs NewCloser).closerFunctions,
        Stmt.setLogging true ∉ prog fn := by
      intro fn hfn
      obtain ⟨p, hp, rfl⟩ := mem_registered regs fn hfn
      exact hno p hp
    exact closeAllLoop_prints_nothing prog (registerAll regs NewCloser).closerFunctions 0
      (setLogging (registerAll regs NewCloser) false) hno2 rfl
  · intro halone hret
    rw [closeAll_registered prog regs false (quiet_of_regs prog regs halone hret)]
    simp [runTrace_false, List.map_reverse]

theorem closeAll_without_logging_witness :
    (∀ p ∈ scenarioRegs, neverPanics lateProgram p.2) ∧
      (∀ p ∈ scenarioRegs, Stmt.setLogging true ∉ lateProgram p.2) ∧
      calls (CloseAll lateProgram (setLogging (registerAll scenarioRegs NewCloser) false)).trace
        = [3, 2, 1] ∧
      printed (CloseAll lateProgram
          (setLogging (registerAll scenarioRegs NewCloser) false)).trace = [] ∧
      (∀ p ∈ scenarioRegs, leavesCloserAlone scenarioProgram p.2) ∧
      (∀ p ∈ scenarioRegs, neverPanics scenarioProgram p.2) ∧
      (CloseAll scenarioProgram (setLogging (registerAll scenarioRegs NewCloser) false)).trace
        = [Event.call 3, Event.call 2, Event.call 1] :=
  ⟨by decide, by decide,
    ((closeAll_without_logging lateProgram scenarioRegs).2.1 (by decide)).2,
    (closeAll_without_logging lateProgram scenarioRegs).2.2.1 (by decide),
    by decide, by decide,
    (closeAll_without_logging scenarioProgram scenarioRegs).2.2.2 (by decide) (by decide)⟩

/-- C4, counterexample to the claim as stated: with close-db registered for
function 1 and flush-logs for function 5, where function 5 assigns
Logging = true, CloseAll started with Logging false calls function 5 without a
line and then prints close-db before function 1, because Logging is read again
in every iteration. -/
theorem closeAll_prints_once_logging_is_assigned :
    (setLogging (registerAll [("close-db", 1), ("flush-logs", 5)] NewCloser) false).Logging
        = false ∧
      (CloseAll toggleProgram
          (setLogging (registerAll [("close-db", 1), ("flush-logs", 5)] NewCloser) false)).trace
        = [Event.call 5, Event.print "close-db", Event.call 1] ∧
      printed (CloseAll toggleProgram
          (setLogging (registerAll [("close-db", 1), ("flush-logs", 5)] NewCloser) false)).trace
        ≠ [] := by
  decide

/-- C5: when the registered cleanup functions leave the closer alone, CloseAll
leaves closerFunctions, messages and Logging as they were, so a second CloseAll
right after the first produces the same trace again; when moreover the
functions do not panic and every function has a message, the two runs together
invoke the registered functions in registry order twice over, each function
twice as often as it is registered. -/
theorem closeAll_keeps_registry (prog : Program) (c : Closer)
    (halone : ∀ fn ∈ c.closerFunctions, leavesCloserAlone prog fn) :
    (CloseAll prog c).closer = c ∧
      (CloseAll prog (CloseAll prog c).closer).trace = (CloseAll prog c).trace ∧
      ((∀ fn ∈ c.closerFunctions, neverPanics prog fn) →
        c.closerFunctions.length ≤ c.messages.length →
        (CloseAll prog c).completion = .returned ∧
        calls ((CloseAll prog c).trace ++ (CloseAll prog (CloseAll prog c).closer).trace)
          = c.closerFunctions ++ c.closerFunctions ∧
        ∀ fn, (calls ((CloseAll prog c).trace
            ++ (CloseAll prog (CloseAll prog c).closer).trace)).count fn
          = 2 * c.closerFunctions.count fn) := by
  have hframe : (CloseAll prog c).closer = c := closeAllLoop_frame prog c.closerFunctions 0 c halone
  refine ⟨hframe, by rw [hframe], ?_⟩
  intro hret hlen
  rw [hframe, closeAll_quiet prog c halone hret hlen]
  have hsnd : (List.zip c.messages c.closerFunctions).map Prod.snd = c.closerFunctions :=
    List.map_snd_zip _ _ hlen
  refine ⟨rfl, ?_, ?_⟩
  · simp [calls_append, calls_runTrace, hsnd]
  · intro fn
    simp only [calls_append, calls_runTrace, hsnd, List.count_append]
    omega

theorem closeAll_keeps_registry_witness :
    (∀ fn ∈ (registerAll scenarioRegs NewCloser).closerFunctions,
        leavesCloserAlone scenarioProgram fn) ∧
      (∀ fn ∈ (registerAll scenarioRegs NewCloser).closerFunctions,
        neverPanics scenarioProgram fn) ∧
      (registerAll scenarioRegs NewCloser).closerFunctions.length
        ≤ (registerAll scenarioRegs NewCloser).messages.length ∧
      (CloseAll scenarioProgram (registerAll scenarioRegs NewCloser)).closer
        = registerAll scenarioRegs NewCloser ∧
      calls ((CloseAll scenarioProgram (registerAll scenarioRegs NewCloser)).trace
          ++ (CloseAll scenarioProgram
            (CloseAll scenarioProgram (registerAll scenarioRegs NewCloser)).closer).trace)
        = [3, 2, 1, 3, 2, 1] :=
  ⟨by decide, by decide, by decide,
    (closeAll_keeps_registry scenarioProgram (registerAll scenarioRegs NewCloser)
      (by decide)).1,
    ((closeAll_keeps_registry scenarioProgram (registerAll scenarioRegs NewCloser)
      (by decide)).2.2 (by decide) (by decide)).2.1⟩

/-- C6: AddCloseFn is total; for every closer, message and function it yields a
closer with the message and the function at index 0, the previous entries
behind them in their previous order (index i moves to i + 1), both lengths
grown by exactly one, and Logging unchanged. -/
theorem addCloseFn_prepends (c : Closer) (message : String) (fn : Fn) :
    (AddCloseFn c message fn).messages = message :: c.messages ∧
      (AddCloseFn c message fn).closerFunctions = fn :: c.closerFunctions ∧
      (AddCloseFn c message fn).messages[0]? = some message ∧
      (AddCloseFn c message fn).closerFunctions[0]? = some fn ∧
      (∀ i, (AddCloseFn c message fn).messages[i + 1]? = c.messages[i]?) ∧
      (∀ i, (AddCloseFn c message fn).closerFunctions[i + 1]? = c.closerFunctions[i]?) ∧
      (AddCloseFn c message fn).messages.length = c.messages.length + 1 ∧
      (AddCloseFn c message fn).closerFunctions.length = c.closerFunctions.length + 1 ∧
      (AddCloseFn c message fn).Logging = c.Logging := by
  simp [AddCloseFn]

/-- C7 (amended): with registrations (L1,f1), ..., (Ln,fn) on a new closer, if
fk panics and the functions registered after it (which run before it) do not
panic, then whatever those functions do to the closer, CloseAll ends in the
panic raised by fk, the functions invoked are exactly fn, ..., fk and none of
fk-1, ..., f1 is invoked; when moreover the functions registered after fk
leave the closer alone, the lines printed are exactly Ln, ..., Lk with Logging
true and none with Logging false. -/
theorem closeAll_panic_propagates (prog : Program) (earlier later : List (String × Fn))
    (Lk : String) (fk : Fn) (b : Bool)
    (hret : ∀ p ∈ later, neverPanics prog p.2)
    (hk : ¬ neverPanics prog fk) :
    (CloseAll prog (setLogging (registerAll (earlier ++ (Lk, fk) :: later) NewCloser) b)).completion
        = .panicked (.raisedBy fk) ∧
      calls (CloseAll prog
          (setLogging (registerAll (earlier ++ (Lk, fk) :: later) NewCloser) b)).trace
        = (later.map Prod.snd).reverse ++ [fk] ∧
      ((∀ p ∈ later, leavesCloserAlone prog p.2) →
        printed (CloseAll prog
            (setLogging (registerAll (earlier ++ (Lk, fk) :: later) NewCloser) b)).trace
          = (if b then (later.map Prod.fst).reverse ++ [Lk] else [])) := by
  have hk2 : Stmt.panic ∈ prog fk := by
    unfold neverPanics at hk
    exact not_not.mp hk
  have hm : (setLogging (registerAll (earlier ++ (Lk, fk) :: later) NewCloser) b).messages
      = later.reverse.map Prod.fst ++ Lk :: (earlier.map Prod.fst).reverse := by
    simp [setLogging, registerAll_messages, NewCloser, List.map_reverse]
  have hf : (setLogging (registerAll (earlier ++ (Lk, fk) :: later) NewCloser) b).closerFunctions
      = later.reverse.map Prod.snd ++ fk :: (earlier.map Prod.snd).reverse := by
    simp [setLogging, registerAll_closerFunctions, NewCloser, List.map_reverse]
  have hret2 : ∀ fn ∈ later.reverse.map Prod.snd, neverPanics prog fn := by
    intro fn hfn
    obtain ⟨p, hp, rfl⟩ := List.mem_map.mp hfn
    exact hret p (List.mem_reverse.mp hp)
  have hlen : 0 + (later.reverse.map Prod.snd).length
      < (setLogging (registerAll (earlier ++ (Lk, fk) :: later) NewCloser) b).messages.length := by
    rw [hm]
    simp
  have hrun := closeAllLoop_panic_after prog (later.reverse.map Prod.snd) fk
    (earlier.map Prod.snd).reverse 0 _ hret2 hk2 hlen
  rw [← hf] at hrun
  refine ⟨hrun.1, ?_, ?_⟩
  · have h2 := hrun.2
    simpa [CloseAll, List.map_reverse] using h2
  · intro halone
    have hq : ∀ p ∈ later.reverse, prog p.2 = [] := fun p hp =>
      quiet_of_regs prog later halone hret p (List.mem_reverse.mp hp)
    have h := (closeAll_panic prog _ later.reverse Lk fk _ _ hm hf hq hk2).2.2
    simpa [List.map_reverse, setLogging] using h

theorem closeAll_panic_propagates_witness :
    (∀ p ∈ [("flush-logs", 3)], neverPanics latePanicProgram p.2) ∧
      ¬ neverPanics latePanicProgram 7 ∧
      (CloseAll latePanicProgram (setLogging (registerAll
          ([("close-db", 1)] ++ ("close-cache", 7) :: [("flush-logs", 3)]) NewCloser)
          true)).completion
        = .panicked (.raisedBy 7) ∧
      calls (CloseAll latePanicProgram (setLogging (registerAll
          ([("close-db", 1)] ++ ("close-cache", 7) :: [("flush-logs", 3)]) NewCloser)
          true)).trace
        = [3, 7] ∧
      (∀ p ∈ [("flush-logs", 3)], neverPanics scenarioProgram p.2) ∧
      ¬ neverPanics scenarioProgram 7 ∧
      (∀ p ∈ [("flush-logs", 3)], leavesCloserAlone scenarioProgram p.2) ∧
      printed (CloseAll scenarioProgram (setLogging (registerAll
          ([("close-db", 1)] ++ ("close-cache", 7) :: [("flush-logs", 3)]) NewCloser) true)).trace
        = ["flush-logs", "close-cache"] :=
  ⟨by decide, by decide,
    (closeAll_panic_propagates latePanicProgram [("close-db", 1)] [("flush-logs", 3)]
      "close-cache" 7 true (by decide) (by decide)).1,
    (closeAll_panic_propagates latePanicProgram [("close-db", 1)] [("flush-logs", 3)]
      "close-cache" 7 true (by decide) (by decide)).2.1,
    by decide, by decide, by decide,
    (closeAll_panic_propagates scenarioProgram [("close-db", 1)] [("flush-logs", 3)]
      "close-cache" 7 true (by decide) (by decide)).2.2 (by decide)⟩

/-- C7, counterexample to the claim as stated: with close-db registered for
function 1, close-cache for function 7 and flush-logs for function 6, where
function 6 assigns Logging = false and function 7 panics, CloseAll started with
Logging true invokes functions 6 and 7 and ends in the panic of function 7, but
the only line printed is flush-logs: the label close-cache of the failing
function is not printed, because Logging is read again in every iteration. -/
theorem closeAll_panic_label_missing_after_logging_off :
    neverPanics toggleProgram 6 ∧
      ¬ neverPanics toggleProgram 7 ∧
      CloseAll toggleProgram (setLogging (registerAll
          ([("close-db", 1)] ++ ("close-cache", 7) :: [("flush-logs", 6)]) NewCloser) true)
        = ⟨.panicked (.raisedBy 7),
            ⟨[6, 7, 1], ["flush-logs", "close-cache", "close-db"], false⟩,
            [Event.print "flush-logs", Event.call 6, Event.call 7]⟩ ∧
      printed (CloseAll toggleProgram (setLogging (registerAll
          ([("close-db", 1)] ++ ("close-cache", 7) :: [("flush-logs", 6)]) NewCloser) true)).trace
        ≠ ["flush-logs", "close-cache"] := by
  decide

/-- C8 (amended): once a signal has been received, the goroutine installed by
CloseGracefullyInCaseOfSigterm prints the fixed notice first, only when Logging
is true at that moment, and runs CloseAll. For every closer and every cleanup
functions: when CloseAll returns, the outcome is the notice, then the complete
trace of CloseAll, then the exit with status 1 as the last and only exit event,
after every function that was in the registry when CloseAll started has been
invoked; when CloseAll does not return, the panic leaves the goroutine and no
exit with status 1 happens. For registrations on a new closer whose functions
leave the closer alone and do not panic, the CloseAll part is the reverse
registration order with each label before its function when Logging is true. -/
theorem shutdown_on_signal (prog : Program) (c : Closer) (sig : Signal)
    (regs : List (String × Fn)) (b : Bool) :
    ((CloseAll prog c).completion = .returned →
        CloseGracefullyInCaseOfSigterm prog c (some sig)
            = ⟨.exited 1, (CloseAll prog c).closer,
                (if c.Logging then [Event.print sigtermNotice] else [])
                  ++ (CloseAll prog c).trace ++ [Event.exit 1]⟩ ∧
          calls (CloseGracefullyInCaseOfSigterm prog c (some sig)).trace
            = c.closerFunctions ∧
          ∀ code, Event.exit code ∉
            (if c.Logging then [Event.print sigtermNotice] else [])
              ++ (CloseAll prog c).trace) ∧
      ((CloseAll prog c).completion ≠ .returned →
        CloseGracefullyInCaseOfSigterm prog c (some sig)
            = (CloseAll prog c).after
                (if c.Logging then [Event.print sigtermNotice] else []) ∧
          (∃ cause, (CloseGracefullyInCaseOfSigterm prog c (some sig)).completion
            = .panicked cause) ∧
          ∀ code, Event.exit code ∉
            (CloseGracefullyInCaseOfSigterm prog c (some sig)).trace) ∧
      ((∀ p ∈ regs, leavesCloserAlone prog p.2) → (∀ p ∈ regs, neverPanics prog p.2) →
        CloseGracefullyInCaseOfSigterm prog (setLogging (registerAll regs NewCloser) b)
              (some sig)
            = ⟨.exited 1, setLogging (registerAll regs NewCloser) b,
                (if b then [Event.print sigtermNotice] else [])
                  ++ (CloseAll prog (setLogging (registerAll regs NewCloser) b)).trace
                  ++ [Event.exit 1]⟩ ∧
          (CloseAll prog (setLogging (registerAll regs NewCloser) b)).trace
            = regs.reverse.flatMap
                (fun p => (if b then [Event.print p.1] else []) ++ [Event.call p.2]) ∧
          calls (CloseGracefullyInCaseOfSigterm prog
              (setLogging (registerAll regs NewCloser) b) (some sig)).trace
            = (regs.map Prod.snd).reverse ∧
          printed (CloseGracefullyInCaseOfSigterm prog
              (setLogging (registerAll regs NewCloser) b) (some sig)).trace
            = (if b then sigtermNotice :: (regs.map Prod.fst).reverse else [])) := by
  refine ⟨?_, ?_, fun halone hret => shutdown_registered prog regs b sig halone hret⟩
  · intro hret
    have hrun : CloseGracefullyInCaseOfSigterm prog c (some sig)
        = ⟨.exited 1, (CloseAll prog c).closer,
            (if c.Logging then [Event.print sigtermNotice] else [])
              ++ (CloseAll prog c).trace ++ [Event.exit 1]⟩ :=
      shutdownSequence_returned prog c hret
    have hcalls : calls (CloseAll prog c).trace = c.closerFunctions :=
      (calls_closeAllLoop prog c.closerFunctions 0 c).2 hret
    refine ⟨hrun, ?_, ?_⟩
    · rw [hrun]
      simp [calls_append, calls_notice, hcalls, calls]
    · intro code hmem
      rcases List.mem_append.mp hmem with h | h
      · exact exit_not_mem_notice c.Logging code h
      · exact exit_not_mem_closeAllLoop prog c.closerFunctions 0 c code h
  · intro hfail
    have hrun : CloseGracefullyInCaseOfSigterm prog c (some sig)
        = (CloseAll prog c).after
            (if c.Logging then [Event.print sigtermNotice] else []) :=
      shutdownSequence_failed prog c hfail
    refine ⟨hrun, ?_, ?_⟩
    · rw [hrun]
      rcases closeAllLoop_completion prog c.closerFunctions 0 c with hc | ⟨cause, hc⟩
      · exact absurd hc hfail
      · exact ⟨cause, hc⟩
    · intro code hmem
      rw [hrun] at hmem
      rcases List.mem_append.mp hmem with h | h
      · exact exit_not_mem_notice c.Logging code h
      · exact exit_not_mem_closeAllLoop prog c.closerFunctions 0 c code h

theorem shutdown_on_signal_witness :
    (CloseAll lateProgram (registerAll scenarioRegs NewCloser)).completion = .returned ∧
      CloseGracefullyInCaseOfSigterm lateProgram (registerAll scenarioRegs NewCloser)
          (some Signal.interrupt)
        = ⟨.exited 1, ⟨[4, 3, 2, 1], ["late", "flush-logs", "close-cache", "close-db"], true⟩,
            [Event.print "SIGTERM RECEIVED. CLOSING SERVER",
              Event.print "flush-logs", Event.call 3, Event.added "late" 4,
              Event.print "flush-logs", Event.call 2,
              Event.print "close-cache", Event.call 1,
              Event.exit 1]⟩ ∧
      (CloseAll toggleProgram (registerAll [("close-db", 1), ("close-cache", 7)]
          NewCloser)).completion ≠ .returned ∧
      (∃ cause, (CloseGracefullyInCaseOfSigterm toggleProgram
          (registerAll [("close-db", 1), ("close-cache", 7)] NewCloser)
          (some Signal.sigterm)).completion = .panicked cause) ∧
      (∀ p ∈ scenarioRegs, leavesCloserAlone scenarioProgram p.2) ∧
      (∀ p ∈ scenarioRegs, neverPanics scenarioProgram p.2) ∧
      CloseGracefullyInCaseOfSigterm scenarioProgram
          (setLogging (registerAll scenarioRegs NewCloser) true) (some Signal.sigterm)
        = ⟨.exited 1, setLogging (registerAll scenarioRegs NewCloser) true,
            [Event.print "SIGTERM RECEIVED. CLOSING SERVER",
              Event.print "flush-logs", Event.call 3,
              Event.print "close-cache", Event.call 2,
              Event.print "close-db", Event.call 1,
              Event.exit 1]⟩ :=
  ⟨by decide,
    ((shutdown_on_signal lateProgram (registerAll scenarioRegs NewCloser) Signal.interrupt
      [] true).1 (by decide)).1.trans (by decide),
    by decide,
    ((shutdown_on_signal toggleProgram (registerAll [("close-db", 1), ("close-cache", 7)]
      NewCloser) Signal.sigterm [] true).2.1 (by decide)).2.1,
    by decide, by decide,
    ((shutdown_on_signal scenarioProgram NewCloser Signal.sigterm scenarioRegs true).2.2
      (by decide) (by decide)).1.trans (by decide)⟩

/-- C8, counterexample to the claim as stated. First input: close-db registered
for function 1, close-cache for function 7, which panics, and flush-logs for
function 3; after the signal the goroutine prints the notice, runs functions 3
and 7 and ends in the panic of function 7: there is no exit with status 1 and
function 1 is never invoked. Second input: the scenario registrations where
function 3 registers function 4 while it runs; the goroutine exits with status
1 although function 4 is in the registry and has not been invoked. -/
theorem shutdown_without_exit_or_with_function_left :
    CloseGracefullyInCaseOfSigterm scenarioProgram
          (registerAll [("close-db", 1), ("close-cache", 7), ("flush-logs", 3)] NewCloser)
          (some Signal.sigterm)
        = ⟨.panicked (.raisedBy 7),
            ⟨[3, 7, 1], ["flush-logs", "close-cache", "close-db"], true⟩,
            [Event.print "SIGTERM RECEIVED. CLOSING SERVER",
              Event.print "flush-logs", Event.call 3,
              Event.print "close-cache", Event.call 7]⟩ ∧
      1 ∉ calls (CloseGracefullyInCaseOfSigterm scenarioProgram
          (registerAll [("close-db", 1), ("close-cache", 7), ("flush-logs", 3)] NewCloser)
          (some Signal.sigterm)).trace ∧
      (CloseGracefullyInCaseOfSigterm lateProgram (registerAll scenarioRegs NewCloser)
          (some Signal.sigterm)).completion = .exited 1 ∧
      4 ∈ (CloseGracefullyInCaseOfSigterm lateProgram (registerAll scenarioRegs NewCloser)
          (some Signal.sigterm)).closer.closerFunctions ∧
      4 ∉ calls (CloseGracefullyInCaseOfSigterm lateProgram
          (registerAll scenarioRegs NewCloser) (some Signal.sigterm)).trace := by
  decide

/-- C9: CloseAll on a closer without registered functions, whatever its
messages and its Logging flag, and in particular on the result of NewCloser
with Logging left true or set to false, returns with an empty trace: no
function is invoked and no line is printed. -/
theorem closeAll_empty_registry (prog : Program) (messages : List String) (b : Bool) :
    CloseAll prog ⟨[], messages, b⟩ = ⟨.returned, ⟨[], messages, b⟩, []⟩ ∧
      (CloseAll prog NewCloser).trace = [] ∧
      (CloseAll prog (setLogging NewCloser b)).trace = [] ∧
      calls (CloseAll prog (setLogging NewCloser b)).trace = [] ∧
      printed (CloseAll prog (setLogging NewCloser b)).trace = [] :=
  ⟨rfl, rfl, rfl, rfl, rfl⟩

/-- C10: NewCloser returns a closer whose closerFunctions and messages are both
empty and whose Logging flag is true. -/
theorem newCloser_empty_and_logging :
    NewCloser.closerFunctions = [] ∧ NewCloser.messages = [] ∧ NewCloser.Logging = true :=
  ⟨rfl, rfl, rfl⟩

/-- C11: evaluation of CloseAll at an input where the printed label is not the
label of the function invoked next. With the registrations close-db for
function 1, close-cache for function 2 and flush-logs for function 3, where
function 3 registers function 4 as late when it runs, the loop prints
flush-logs before function 3, then flush-logs again before function 2 and
close-cache before function 1: the functions come from the slice as it was at
loop entry, the labels from the messages slice after it was shifted by the new
registration. The pair flush-logs with function 2 was never passed to
AddCloseFn. -/
theorem closeAll_mislabels_after_late_registration :
    (registerAll scenarioRegs NewCloser).Logging = true ∧
      (CloseAll lateProgram (registerAll scenarioRegs NewCloser)).trace
        = [Event.print "flush-logs", Event.call 3, Event.added "late" 4,
            Event.print "flush-logs", Event.call 2,
            Event.print "close-cache", Event.call 1] ∧
      announcedCalls (CloseAll lateProgram (registerAll scenarioRegs NewCloser)).trace
        = [(some "flush-logs", 3), (some "flush-logs", 2), (some "close-cache", 1)] ∧
      (("flush-logs", 2) : String × Fn) ∉
        scenarioRegs ++ registrations (CloseAll lateProgram
          (registerAll scenarioRegs NewCloser)).trace ∧
      (("close-cache", 1) : String × Fn) ∉
        scenarioRegs ++ registrations (CloseAll lateProgram
          (registerAll scenarioRegs NewCloser)).trace := by
  decide

/-- C12: in every state reached from NewCloser by AddCloseFn calls, CloseAll runs
(whose cleanup functions may call AddCloseFn, assign Logging or panic) and
Logging assignments, CloseAll does not end in an index-out-of-range panic, and
for every index i of the functions slice, the closer that the loop has in hand
when it reaches i (the one left by the loop over the first i functions, see
closeAllLoop_append) has more than i messages. -/
theorem closeAll_lookup_in_bounds (prog : Program) (ops : List Op) :
    (CloseAll prog (runOps prog ops NewCloser).1).completion
        ≠ .panicked .indexOutOfRange ∧
      ∀ i, i < (runOps prog ops NewCloser).1.closerFunctions.length →
        i < (closeAllLoop prog ((runOps prog ops NewCloser).1.closerFunctions.take i) 0
              (runOps prog ops NewCloser).1).closer.messages.length ∧
          logStep (closeAllLoop prog ((runOps prog ops NewCloser).1.closerFunctions.take i) 0
              (runOps prog ops NewCloser).1).closer i ≠ none := by
  have hlen : (runOps prog ops NewCloser).1.messages.length
      = (runOps prog ops NewCloser).1.closerFunctions.length := by
    obtain ⟨hm, hf⟩ := runOps_grownBy prog ops NewCloser
    rw [hm, hf]
    simp [NewCloser]
  constructor
  · exact closeAllLoop_no_index_panic prog _ 0 _ (by omega)
  · intro i hi
    have hgrow := messages_length_of_grownBy
      (closeAllLoop_grownBy prog ((runOps prog ops NewCloser).1.closerFunctions.take i) 0
        (runOps prog ops NewCloser).1)
    have hlt : i < (closeAllLoop prog ((runOps prog ops NewCloser).1.closerFunctions.take i) 0
        (runOps prog ops NewCloser).1).closer.messages.length := by omega
    refine ⟨hlt, ?_⟩
    rw [logStep_of_lt _ i hlt]
    simp

theorem closeAll_lookup_in_bounds_witness :
    1 < (runOps lateProgram
          [Op.addCloseFn "close-db" 1, Op.addCloseFn "flush-logs" 3, Op.closeAll]
          NewCloser).1.closerFunctions.length ∧
      1 < (closeAllLoop lateProgram ((runOps lateProgram
            [Op.addCloseFn "close-db" 1, Op.addCloseFn "flush-logs" 3, Op.closeAll]
            NewCloser).1.closerFunctions.take 1) 0
          (runOps lateProgram
            [Op.addCloseFn "close-db" 1, Op.addCloseFn "flush-logs" 3, Op.closeAll]
            NewCloser).1).closer.messages.length :=
  ⟨by decide,
    ((closeAll_lookup_in_bounds lateProgram
      [Op.addCloseFn "close-db" 1, Op.addCloseFn "flush-logs" 3, Op.closeAll]).2 1
        (by decide)).1⟩

/-- C13: for every closer and every program, the functions CloseAll invokes are
an initial part of the functions slice as it was when CloseAll started, and the
whole of it when CloseAll returns, so a function that was not registered at
that moment is not invoked in this run. The functions registered by AddCloseFn
during the run are in front of the old entries afterwards, latest first, with
their messages; the one registered last is at index 0 and is the first
function the next CloseAll invokes, and when the next CloseAll returns it has
invoked the newly registered functions before all the old ones. -/
theorem closeAll_runs_snapshot (prog : Program) (c : Closer) :
    calls (CloseAll prog c).trace <+: c.closerFunctions ∧
      ((CloseAll prog c).completion = .returned →
        calls (CloseAll prog c).trace = c.closerFunctions) ∧
      (∀ fn, fn ∉ c.closerFunctions → fn ∉ calls (CloseAll prog c).trace) ∧
      (CloseAll prog c).closer.closerFunctions
        = ((registrations (CloseAll prog c).trace).map Prod.snd).reverse
            ++ c.closerFunctions ∧
      (CloseAll prog c).closer.messages
        = ((registrations (CloseAll prog c).trace).map Prod.fst).reverse ++ c.messages ∧
      (∀ message fn,
        (registrations (CloseAll prog c).trace).getLast? = some (message, fn) →
          (CloseAll prog c).closer.closerFunctions.head? = some fn ∧
          (CloseAll prog c).closer.messages.head? = some message ∧
          (calls (CloseAll prog (CloseAll prog c).closer).trace).head? = some fn) ∧
      ((CloseAll prog (CloseAll prog c).closer).completion = .returned →
        calls (CloseAll prog (CloseAll prog c).closer).trace
          = ((registrations (CloseAll prog c).trace).map Prod.snd).reverse
              ++ c.closerFunctions) := by
  obtain ⟨hpre, hall⟩ := calls_closeAllLoop prog c.closerFunctions 0 c
  have hgrow : GrownBy c (CloseAll prog c).trace (CloseAll prog c).closer :=
    closeAllLoop_grownBy prog c.closerFunctions 0 c
  refine ⟨hpre, hall, ?_, hgrow.2, hgrow.1, ?_, ?_⟩
  · intro fn hfn hmem
    exact hfn (hpre.subset hmem)
  · intro message fn hlast
    obtain ⟨hm, hf⟩ := head_of_grownBy message fn hgrow hlast
    exact ⟨hf, hm, closeAll_first_call prog _ message fn hm hf⟩
  · intro hret
    have h2 := (calls_closeAllLoop prog (CloseAll prog c).closer.closerFunctions 0
      (CloseAll prog c).closer).2 hret
    exact h2.trans hgrow.2

theorem closeAll_runs_snapshot_witness :
    (CloseAll lateProgram (registerAll scenarioRegs NewCloser)).completion = .returned ∧
      calls (CloseAll lateProgram (registerAll scenarioRegs NewCloser)).trace = [3, 2, 1] ∧
      4 ∉ (registerAll scenarioRegs NewCloser).closerFunctions ∧
      4 ∉ calls (CloseAll lateProgram (registerAll scenarioRegs NewCloser)).trace ∧
      (registrations (CloseAll lateProgram
          (registerAll scenarioRegs NewCloser)).trace).getLast? = some ("late", 4) ∧
      (CloseAll lateProgram (registerAll scenarioRegs NewCloser)).closer.closerFunctions
        = [4, 3, 2, 1] ∧
      (calls (CloseAll lateProgram
          (CloseAll lateProgram (registerAll scenarioRegs NewCloser)).closer).trace).head?
        = some 4 ∧
      (CloseAll lateProgram
          (CloseAll lateProgram (registerAll scenarioRegs NewCloser)).closer).completion
        = .returned ∧
      calls (CloseAll lateProgram
          (CloseAll lateProgram (registerAll scenarioRegs NewCloser)).closer).trace
        = [4, 3, 2, 1] :=
  ⟨by decide,
    (closeAll_runs_snapshot lateProgram (registerAll scenarioRegs NewCloser)).2.1 (by decide),
    by decide,
    (closeAll_runs_snapshot lateProgram (registerAll scenarioRegs NewCloser)).2.2.1 4
      (by decide),
    by decide,
    (closeAll_runs_snapshot lateProgram (registerAll scenarioRegs NewCloser)).2.2.2.1,
    ((closeAll_runs_snapshot lateProgram (registerAll scenarioRegs NewCloser)).2.2.2.2.2.1
      "late" 4 (by decide)).2.2,
    by decide,
    (closeAll_runs_snapshot lateProgram (registerAll scenarioRegs NewCloser)).2.2.2.2.2.2
      (by decide)⟩

end closer
